import Mathlib

/-!
Verification development for the GraphStorm input-embedding and
mini-batch prediction pipeline.

The mini-batch prediction loops are embedded from
`src/python/graphstorm/model/node_gnn.py` (`node_mini_batch_gnn_predict`
and `node_mini_batch_predict`).  Tensors are modelled as lists of integer
rows (`List Int`; only row identity, concatenation and row counts matter
to the properties below).  Python dicts that are only iterated or merged
are modelled as association lists (`List (String × _)`, insertion order
preserved); accumulator dicts that start empty are modelled as total
functions `String → List _` defaulting to the empty list.  Exceptions
(Python `assert`, `KeyError`, index errors, failing collaborator calls)
are modelled with `Except String`.  The model's train/eval flag, which the
Python code mutates in place via `model.eval()` / `model.train()`, is
threaded explicitly: each loop takes the entry mode and returns the mode
the model is left in.
-/

/-- A tensor is modelled as its list of rows; a row is an integer. -/
abbrev Tensor := List Int

/-- The train/eval mode flag of a torch module. -/
inductive Mode where
  | train : Mode
  | eval : Mode
deriving DecidableEq, Repr

/-- Seed-node sets handed to `data.get_labels`: a per-node-type mapping of
node indices, kept abstract otherwise. -/
abbrev Seeds := List (String × List Nat)

/-- The `input_nodes` component yielded by the loader: either a per-node-type
dict of index sequences, or (for a homogeneous graph) a bare index tensor
(lines 194-196 of node_gnn.py normalize the latter). -/
inductive InputNodesRep where
  | dict : List (String × List Nat) → InputNodesRep
  | flat : List Nat → InputNodesRep
deriving DecidableEq, Repr

/-- One `(input_nodes, seeds, blocks)` triple yielded by the mini-batch
loader.  Message-passing blocks are opaque handles. -/
structure Batch where
  inputNodes : InputNodesRep
  seeds : Seeds
  blocks : List Nat
deriving DecidableEq, Repr

/-- Result of `model.predict`: either per-node-type dicts of predictions and
embeddings, or a flat pair of tensors with no node-type key (e.g. an LM-only
encoder).  In the Python code the `isinstance(pred, dict)` test at line 203
distinguishes the two. -/
inductive PredOut where
  | perType : List (String × Tensor) → List (String × Tensor) → PredOut
  | flat : Tensor → Tensor → PredOut

/-- The dataset reachable from the loader (`loader.data`): the label-field
configuration (`data.labels`, `none` when no label field was given), the
graph's node types (`g.ntypes`), node-feature fetch and label fetch.
Label fetch is a remote call that may fail. -/
structure GSData where
  labelField : Option String
  ntypes : List String
  get_node_feats : List (String × List Nat) → List (String × Tensor)
  get_labels : Seeds → Except String (List (String × Tensor))

/-- The model consumed by `node_mini_batch_gnn_predict`: its `predict`
contract `(blocks, node_feats, edge_feats = none, input_nodes, return_proba)
-> (pred, emb)`. -/
structure GSModel where
  predict : List Nat → List (String × Tensor) → List (String × List Nat) → Bool → PredOut

/-- The decoder-only model consumed by `node_mini_batch_predict`:
`decoder.predict` and `decoder.predict_proba` applied to an embedding
tensor. -/
structure GSDecoderModel where
  decoderPredict : Tensor → Tensor
  decoderPredictProba : Tensor → Tensor

/-- `append_to_dict(from_dict, to_dict)` of node_gnn.py lines 185-190:
for each `(k, v)` of `from_dict`, append `v` to the list `to_dict[k]`
(creating it when absent).  Accumulators are total functions defaulting
to `[]`. -/
def appendToDict (d : List (String × Tensor)) (acc : String → List Tensor) :
    String → List Tensor :=
  d.foldl (fun a kv k => if k = kv.1 then a k ++ [kv.2] else a k) acc

/-- Lines 194-196 of node_gnn.py: when `input_nodes` is not a dict, assert
the graph has a single node type and wrap the tensor under it. -/
def normalizeInput (ntypes : List String) :
    InputNodesRep → Except String (List (String × List Nat))
  | .dict m => .ok m
  | .flat ins =>
    match ntypes with
    | [t] => .ok [(t, ins)]
    | _ => .error "assert len(g.ntypes) == 1"

/-- Accumulator state of the `node_mini_batch_gnn_predict` loop: the
`preds`, `embs` and `labels` dicts of per-batch tensor lists, plus the
record of the seed sets passed to `data.get_labels` (the loop's observable
interaction with the dataset collaborator). -/
structure GnnLoopState where
  preds : String → List Tensor
  embs : String → List Tensor
  labels : String → List Tensor
  labelCalls : List Seeds

/-- The initial (empty-dict) accumulator state. -/
def GnnLoopState.init : GnnLoopState :=
  { preds := fun _ => [], embs := fun _ => [], labels := fun _ => [],
    labelCalls := [] }

/-- One iteration of the loop body of `node_mini_batch_gnn_predict`
(node_gnn.py lines 193-210): normalize `input_nodes`, fetch node features,
run `model.predict`, fetch labels (unconditionally), optionally accumulate
labels, then accumulate predictions and embeddings — inferring the sole
label node type when the prediction is a flat tensor (`assert len(label)
== 1` at line 207). -/
def gnnPredictStep (model : GSModel) (data : GSData)
    (return_proba return_label : Bool) (st : GnnLoopState) (b : Batch) :
    Except String GnnLoopState := do
  let inputNodes ← normalizeInput data.ntypes b.inputNodes
  let inputFeats := data.get_node_feats inputNodes
  let out := model.predict b.blocks inputFeats inputNodes return_proba
  let label ← data.get_labels b.seeds
  let st := { st with labelCalls := st.labelCalls ++ [b.seeds] }
  let st := if return_label then { st with labels := appendToDict label st.labels }
            else st
  match out with
  | .perType p e =>
    .ok { st with preds := appendToDict p st.preds, embs := appendToDict e st.embs }
  | .flat p e =>
    match label with
    | [(t, _)] =>
      .ok { st with preds := appendToDict [(t, p)] st.preds,
                    embs := appendToDict [(t, e)] st.embs }
    | _ => .error "assert len(label) == 1"

/-- The batch loop of `node_mini_batch_gnn_predict`: fold the loader's
batches through `gnnPredictStep`. -/
def gnnPredictLoop (model : GSModel) (data : GSData)
    (return_proba return_label : Bool) (st : GnnLoopState) (bs : List Batch) :
    Except String GnnLoopState :=
  bs.foldlM (gnnPredictStep model data return_proba return_label) st

/-- The value returned by `node_mini_batch_gnn_predict`: concatenated
per-type predictions and embeddings, concatenated per-type labels when
requested (`none` otherwise), plus the recorded `get_labels` call
arguments. -/
structure NodeGnnPredictOutput where
  preds : String → Tensor
  embs : String → Tensor
  labels : Option (String → Tensor)
  labelCalls : List Seeds

/-- `node_mini_batch_gnn_predict` of node_gnn.py lines 150-222.  The loader
is its (finite) list of yielded batches; `mode` is the model's mode at
entry.  The label-field assertion (lines 176-179) fires before
`model.eval()`; an exception escaping the batch loop propagates after
`model.eval()` but before `model.train()` (line 212), so the returned mode
is `eval` on that path and `train` only on the success path. -/
def node_mini_batch_gnn_predict (model : GSModel) (data : GSData)
    (loader : List Batch) (return_proba return_label : Bool) (mode : Mode) :
    Except String NodeGnnPredictOutput × Mode :=
  if return_label && data.labelField.isNone then
    (.error "Return label is required, but the label field is not provided", mode)
  else
    match gnnPredictLoop model data return_proba return_label .init loader with
    | .error e => (.error e, .eval)
    | .ok st =>
      (.ok { preds := fun t => (st.preds t).flatten,
             embs := fun t => (st.embs t).flatten,
             labels := if return_label then some (fun t => (st.labels t).flatten)
                       else none,
             labelCalls := st.labelCalls }, .train)

/-- Accumulator state of the `node_mini_batch_predict` loop (node_gnn.py
lines 253-254): only predictions and labels. -/
structure DecLoopState where
  preds : String → List Tensor
  labels : String → List Tensor

/-- The initial (empty-dict) accumulator state of `node_mini_batch_predict`. -/
def DecLoopState.init : DecLoopState :=
  { preds := fun _ => [], labels := fun _ => [] }

/-- Append a single tensor to one key of an accumulator dict (the inline
`if ntype in preds: append else create` of node_gnn.py lines 264-267). -/
def appendOne (k : String) (v : Tensor) (acc : String → List Tensor) :
    String → List Tensor :=
  fun t => if t = k then acc t ++ [v] else acc t

/-- `emb[ntype][in_nodes]`: row selection from a per-type embedding table by
an index tensor; an out-of-range index raises. -/
def selectRows (table : Tensor) (ins : List Nat) : Except String Tensor :=
  match ins.all (fun i => decide (i < table.length)) with
  | true => .ok (ins.map (fun i => table.getD i 0))
  | false => .error "IndexError: index out of range"

/-- Dict lookup that raises `KeyError` on a missing key, as Python's
`d[k]` does. -/
def dictGet (d : List (String × α)) (k : String) : Except String α :=
  match d.lookup k with
  | some v => .ok v
  | none => .error "KeyError"

/-- The body run for one `(ntype, in_nodes)` item of a batch's `input_nodes`
in `node_mini_batch_predict` (node_gnn.py lines 259-273): slice the
precomputed embedding table, apply the decoder (`predict_proba` or
`predict`), accumulate, and, when labels are requested, fetch and
accumulate that node type's labels. -/
def decPredictItem (model : GSDecoderModel) (data : GSData)
    (emb : List (String × Tensor)) (return_proba return_label : Bool)
    (seeds : Seeds) (st : DecLoopState) (kv : String × List Nat) :
    Except String DecLoopState := do
  let table ← dictGet emb kv.1
  let rows ← selectRows table kv.2
  let pred := if return_proba then model.decoderPredictProba rows
              else model.decoderPredict rows
  let st := { st with preds := appendOne kv.1 pred st.preds }
  if return_label then do
    let lbl ← data.get_labels seeds
    let lt ← dictGet lbl kv.1
    .ok { st with labels := appendOne kv.1 lt st.labels }
  else
    .ok st

/-- One iteration of the batch loop of `node_mini_batch_predict`
(node_gnn.py lines 258-273): iterate the batch's `input_nodes` dict.  The
message-passing blocks of the triple are ignored (`for input_nodes, seeds,
_ in loader`).  A non-dict `input_nodes` raises (`.items()` on a tensor). -/
def decPredictStep (model : GSDecoderModel) (data : GSData)
    (emb : List (String × Tensor)) (return_proba return_label : Bool)
    (st : DecLoopState) (b : Batch) : Except String DecLoopState := do
  match b.inputNodes with
  | .flat _ => .error "AttributeError: input_nodes has no items"
  | .dict m =>
    m.foldlM (decPredictItem model data emb return_proba return_label b.seeds) st

/-- The value returned by `node_mini_batch_predict`: concatenated per-type
predictions and, when requested, concatenated per-type labels. -/
structure DecPredictOutput where
  preds : String → Tensor
  labels : Option (String → Tensor)

/-- `node_mini_batch_predict` of node_gnn.py lines 224-283: the
precomputed-embedding overload.  `emb` is the per-node-type full embedding
table; no message passing is performed.  Mode handling mirrors
`node_mini_batch_gnn_predict`: the label-field assertion (lines 248-251)
fires before `model.eval()`, an escaping exception leaves the model in
`eval` mode, and `model.train()` (line 274) runs only on the success
path. -/
def node_mini_batch_predict (model : GSDecoderModel) (data : GSData)
    (emb : List (String × Tensor)) (loader : List Batch)
    (return_proba return_label : Bool) (mode : Mode) :
    Except String DecPredictOutput × Mode :=
  if return_label && data.labelField.isNone then
    (.error "Return label is required, but the label field is not provided", mode)
  else
    match loader.foldlM (decPredictStep model data emb return_proba return_label)
        .init with
    | .error e => (.error e, .eval)
    | .ok st =>
      (.ok { preds := fun t => (st.preds t).flatten,
             labels := if return_label then some (fun t => (st.labels t).flatten)
                       else none }, .train)

/-- Modelled from the spec: per-node-type stage configuration of the input
embedding layer (spec section 4.2; the source file
`graphstorm/model/embed.py` defining `GSNodeEncoderInputLayer` is not under
src/).  Each optional stage maps a global node index to its contribution
already projected to the common output width (width 1 here, a row being an
integer): feature projection, sparse-embedding lookup, LM fusion. -/
structure NTypeStages where
  featProj : Option (Nat → Int)
  sparseEmb : Option (Nat → Int)
  lmFusion : Option (Nat → Int)

/-- Modelled from the spec: the combination rule of spec section 4.2 —
outputs of enabled stages are summed elementwise at the common width. -/
def NTypeStages.stageSum (c : NTypeStages) (i : Nat) : Int :=
  (match c.featProj with | some f => f i | none => 0)
    + (match c.sparseEmb with | some f => f i | none => 0)
    + (match c.lmFusion with | some f => f i | none => 0)

/-- Modelled from the spec: the input embedding layer's configuration — the
node types it was constructed for, each with its enabled stages (spec
section 4.2). -/
structure InputLayerConfig where
  types : String → Option NTypeStages

/-- Modelled from the spec: the forward call of the input embedding layer
(spec section 4.2; `GSNodeEncoderInputLayer.forward` is not under src/).
For each node type of the input mapping, produce one row per requested
index (so zero indices give a zero-row entry); a node type unknown to the
layer's configuration signals a usage error, and no partial output is
produced. -/
def inputLayerForward (cfg : InputLayerConfig)
    (inputNodes : List (String × List Nat)) :
    Except String (List (String × Tensor)) :=
  if inputNodes.all (fun kv => (cfg.types kv.1).isSome) then
    .ok (inputNodes.map (fun kv =>
      (kv.1, kv.2.map (fun i =>
        (match cfg.types kv.1 with
         | some c => c.stageSum i
         | none => 0)))))
  else .error "usage error: node type unknown to the layer"

/-- Modelled from the spec: the mutable state of the LM-fusion
sub-component (spec sections 3 and 4.2; `GSLMNodeEncoderInputLayer` is not
under src/).  The LM collaborator is modelled as a per-node lookup of its
pooled output determined by the current parameters `lmParams`; `lmCache`
is the populated pooled-output cache (`none` when empty/invalidated). -/
structure LMLayerState where
  lmParams : Nat → Int
  lmCache : Option (Nat → Int)

/-- Modelled from the spec: the immutable configuration of the LM-bearing
input layer — the projected raw-feature contribution per node and the
linear projection weight applied to the LM pooled output (width 1). -/
structure LMLayerConfig where
  featOf : Nat → Int
  lmProjW : Int

/-- Modelled from the spec: obtain the LM pooled output for one node —
from the cache if available and valid, else by running the LM on that
node (spec section 4.2 stage (c) and section 4.4 state machine). -/
def pooledOf (st : LMLayerState) (i : Nat) : Int :=
  match st.lmCache with
  | some c => c i
  | none => st.lmParams i

/-- Modelled from the spec: the forward call of the LM-bearing input layer
for one batch of node indices — feature contribution plus projected LM
pooled output, summed at the common width (spec section 4.2). -/
def lmLayerForward (cfg : LMLayerConfig) (st : LMLayerState)
    (batch : List Nat) : Tensor :=
  batch.map (fun i => cfg.featOf i + cfg.lmProjW * pooledOf st i)

/-- Modelled from the spec: `freeze` — (re)populates the cache (if empty)
from the current LM parameters and marks them non-trainable; subsequent
computations read the cache instead of invoking the LM (spec section
4.2). -/
def LMLayerState.freeze (st : LMLayerState) : LMLayerState :=
  { st with lmCache := match st.lmCache with
                       | some c => some c
                       | none => some st.lmParams }

/-- Modelled from the spec: `unfreeze` — clears the cache and marks LM
parameters trainable again; subsequent computations must invoke the LM
directly per batch (spec section 4.2). -/
def LMLayerState.unfreeze (st : LMLayerState) : LMLayerState :=
  { st with lmCache := none }

/-- Modelled from the spec: an in-place mutation of the LM's parameters
(the `rand_init` re-initialization of the warmup test), leaving the cache
untouched. -/
def LMLayerState.mutateParams (st : LMLayerState) (p : Nat → Int) :
    LMLayerState :=
  { st with lmParams := p }

/-- Modelled from the spec: the distributed graph as seen by the full-graph
compute loop — its node types and per-type node counts (spec section
4.3). -/
structure DistGraph where
  ntypes : List String
  numNodes : String → Nat

/-- Modelled from the spec: the distributed embedding store the compute
loop writes into — per node type, an optional already-created embedding
tensor (the `input_emb` tensor reused on a second call). -/
structure EmbStore where
  tbl : String → Option Tensor

set_option linter.unusedVariables false in
/-- Chunk the index range `[start, start + n)` into consecutive pieces of
size `b` (last piece may be shorter); empty when `b = 0`. -/
def chunksFrom (b : Nat) (start n : Nat) : List (List Nat) :=
  if h : n = 0 ∨ b = 0 then []
  else if n ≤ b then [List.range' start n]
  else List.range' start b :: chunksFrom b (start + b) (n - b)
termination_by n
decreasing_by
  push_neg at h
  omega

/-- Write the rows produced by the layer for one chunk of node indices
into the embedding tensor at those global positions. -/
def writeRows (f : Nat → Int) (arr : Tensor) (ins : List Nat) : Tensor :=
  ins.foldl (fun a i => a.set i (f i)) arr

/-- Modelled from the spec: the per-node-type body of
`compute_node_input_embeddings` (spec section 4.3;
`graphstorm/model/embed.py` is not under src/): reuse the store's existing
embedding tensor when present, else create one sized to the node count,
then iterate the type's node indices in fixed-size chunks, invoking the
layer (`layer t i` is node `i`'s embedding row) and writing results at the
global node positions. -/
def computeTypeEmb (layer : String → Nat → Int) (b : Nat) (count : Nat)
    (store : EmbStore) (t : String) : Tensor :=
  let init := (store.tbl t).getD (List.replicate count 0)
  (chunksFrom b 0 count).foldl (writeRows (layer t)) init

/-- Modelled from the spec: `compute_node_input_embeddings(g, batch_size,
layer, feat_field)` (spec section 4.3) — compute every node type's full
embedding tensor and commit it to the distributed store; returns the
per-type embeddings and the updated store. -/
def compute_node_input_embeddings (g : DistGraph) (b : Nat)
    (layer : String → Nat → Int) (store : EmbStore) :
    (String → Tensor) × EmbStore :=
  (fun t => computeTypeEmb layer b (g.numNodes t) store t,
   { tbl := fun t =>
       if g.ntypes.contains t then
         some (computeTypeEmb layer b (g.numNodes t) store t)
       else store.tbl t })

/-- The tensors that `appendToDict` contributes to key `t` from one source
dict, in the dict's iteration order. -/
def tensorsFor (t : String) : List (String × Tensor) → List Tensor
  | [] => []
  | kv :: d => if kv.1 = t then kv.2 :: tensorsFor t d else tensorsFor t d

/-- The list of prediction tensors that one batch contributes to node type
`t` in `node_mini_batch_gnn_predict`, read off from the source loop body:
the per-type dict entries for `t` when `model.predict` returns a dict, and
the flat tensor when it returns a flat output whose label mapping's sole
key is `t`.  (Defined as `[]` on the error paths, which cannot occur in a
successful run.) -/
def batchPredTensors (model : GSModel) (data : GSData) (return_proba : Bool)
    (t : String) (b : Batch) : List Tensor :=
  match normalizeInput data.ntypes b.inputNodes with
  | .error _ => []
  | .ok inputNodes =>
    match data.get_labels b.seeds with
    | .error _ => []
    | .ok label =>
      match model.predict b.blocks (data.get_node_feats inputNodes) inputNodes
          return_proba with
      | .perType p _ => tensorsFor t p
      | .flat p _ =>
        match label with
        | [(u, _)] => if u = t then [p] else []
        | _ => []

/-- The list of embedding tensors one batch contributes to node type `t`
in `node_mini_batch_gnn_predict` (mirror of `batchPredTensors`). -/
def batchEmbTensors (model : GSModel) (data : GSData) (return_proba : Bool)
    (t : String) (b : Batch) : List Tensor :=
  match normalizeInput data.ntypes b.inputNodes with
  | .error _ => []
  | .ok inputNodes =>
    match data.get_labels b.seeds with
    | .error _ => []
    | .ok label =>
      match model.predict b.blocks (data.get_node_feats inputNodes) inputNodes
          return_proba with
      | .perType _ e => tensorsFor t e
      | .flat _ e =>
        match label with
        | [(u, _)] => if u = t then [e] else []
        | _ => []

/-- The list of label tensors one batch contributes to node type `t` when
labels are requested: the entries for `t` of that batch's `get_labels`
result. -/
def batchLabelTensors (data : GSData) (t : String) (b : Batch) : List Tensor :=
  match data.get_labels b.seeds with
  | .error _ => []
  | .ok label => tensorsFor t label

/-- A concrete per-type model: always predicts the dict `{n0: [1, 2]}` with
embeddings `{n0: [3, 4]}`. -/
def wModel : GSModel := ⟨fun _ _ _ _ => .perType [("n0", [1, 2])] [("n0", [3, 4])]⟩

/-- A concrete model that returns a flat (non-dict) output. -/
def wFlatModel : GSModel := ⟨fun _ _ _ _ => .flat [7] [8]⟩

/-- A concrete decoder-only model. -/
def wDec : GSDecoderModel := ⟨fun r => r, fun r => r⟩

/-- A concrete dataset with a configured label field and a single-type
label mapping. -/
def wData : GSData :=
  { labelField := some "label", ntypes := ["n0"],
    get_node_feats := fun _ => [],
    get_labels := fun _ => .ok [("n0", [0, 0])] }

/-- A concrete dataset with no label field configured. -/
def wDataNoLabel : GSData :=
  { labelField := none, ntypes := ["n0"],
    get_node_feats := fun _ => [],
    get_labels := fun _ => .ok [] }

/-- A concrete dataset whose label mapping names two node types. -/
def wTwoLabelData : GSData :=
  { labelField := some "label", ntypes := ["n0", "n1"],
    get_node_feats := fun _ => [],
    get_labels := fun _ => .ok [("n0", [0]), ("n1", [0])] }

/-- A concrete loader batch. -/
def wBatch : Batch := ⟨.dict [("n0", [0, 1])], [("n0", [0, 1])], [0]⟩

/-- A concrete dataset whose label mapping has the sole key `n0`. -/
def wFlatData : GSData :=
  { labelField := some "label", ntypes := ["n0"],
    get_node_feats := fun _ => [],
    get_labels := fun _ => .ok [("n0", [9])] }

/-- The decoder call selected by `return_proba`: `decoder.predict_proba`
when true, `decoder.predict` otherwise (node_gnn.py lines 260-263). -/
def decOf (model : GSDecoderModel) (return_proba : Bool) : Tensor → Tensor :=
  fun rows => if return_proba then model.decoderPredictProba rows
              else model.decoderPredict rows

/-- The prediction one `(ntype, in_nodes)` item of a batch contributes in
`node_mini_batch_predict`, read off from the source: the decoder applied
to the rows of the precomputed per-type embedding table selected by the
item's input-node indices (`none` on the error paths, which cannot occur
in a successful run). -/
def itemPred (model : GSDecoderModel) (emb : List (String × Tensor))
    (return_proba : Bool) (kv : String × List Nat) : Option Tensor :=
  match emb.lookup kv.1 with
  | none => none
  | some table =>
    match kv.2.all (fun i => decide (i < table.length)) with
    | true => some (decOf model return_proba (kv.2.map (fun i => table.getD i 0)))
    | false => none

/-- The list of prediction tensors one batch contributes to node type `t`
in `node_mini_batch_predict`: one per occurrence of `t` in the batch's
`input_nodes` dict, in dict order. -/
def batchDecPreds (model : GSDecoderModel) (emb : List (String × Tensor))
    (return_proba : Bool) (t : String) (b : Batch) : List Tensor :=
  match b.inputNodes with
  | .flat _ => []
  | .dict m =>
    m.filterMap (fun kv =>
      if kv.1 = t then itemPred model emb return_proba kv else none)

/-- A concrete precomputed per-type embedding table. -/
def wEmb : List (String × Tensor) := [("n0", [10, 20, 30])]

/-- A concrete one-type graph with three nodes. -/
def wGraph : DistGraph := ⟨["n0"], fun _ => 3⟩

/-- A concrete empty distributed embedding store. -/
def wStore : EmbStore := ⟨fun _ => none⟩

theorem appendToDict_apply (d : List (String × Tensor))
    (acc : String → List Tensor) (t : String) :
    appendToDict d acc t = acc t ++ tensorsFor t d := by
  induction d generalizing acc with
  | nil => simp [appendToDict, tensorsFor]
  | cons kv d ih =>
    show appendToDict d (fun k => if k = kv.1 then acc k ++ [kv.2] else acc k) t
        = acc t ++ tensorsFor t (kv :: d)
    rw [ih]
    by_cases hkt : kv.1 = t
    · simp [tensorsFor, hkt]
    · simp [tensorsFor, hkt, Ne.symm hkt]

set_option linter.unreachableTactic false in
set_option linter.unusedTactic false in
/-- Characterization of one successful `node_mini_batch_gnn_predict` loop
iteration: each accumulator grows exactly by the batch's contribution, the
batch's seed set is recorded, and its label fetch succeeded. -/
theorem gnnPredictStep_ok (model : GSModel) (data : GSData)
    (return_proba return_label : Bool) (st0 st1 : GnnLoopState) (b : Batch)
    (h : gnnPredictStep model data return_proba return_label st0 b = .ok st1) :
    (∀ t, st1.preds t
        = st0.preds t ++ batchPredTensors model data return_proba t b)
    ∧ (∀ t, st1.embs t
        = st0.embs t ++ batchEmbTensors model data return_proba t b)
    ∧ (∀ t, st1.labels t
        = st0.labels t
          ++ (if return_label then batchLabelTensors data t b else []))
    ∧ st1.labelCalls = st0.labelCalls ++ [b.seeds]
    ∧ ∃ l, data.get_labels b.seeds = .ok l := by
  unfold gnnPredictStep at h
  cases hn : normalizeInput data.ntypes b.inputNodes with
  | error e => rw [hn] at h; exact Except.noConfusion h
  | ok inputNodes =>
  rw [hn] at h
  simp only [bind, Except.bind] at h
  cases hl : data.get_labels b.seeds with
  | error e => rw [hl] at h; exact Except.noConfusion h
  | ok label =>
  rw [hl] at h
  cases ho : model.predict b.blocks (data.get_node_feats inputNodes)
      inputNodes return_proba with
  | perType p e =>
    rw [ho] at h
    cases return_label <;>
    · cases h
      refine ⟨fun t => ?_, fun t => ?_, fun t => ?_, ?_, ⟨label, rfl⟩⟩ <;>
        simp [batchPredTensors, batchEmbTensors, batchLabelTensors, hn, hl,
          ho, appendToDict_apply]
  | flat p e =>
    rw [ho] at h
    match label, h with
    | [], h => exact Except.noConfusion h
    | [(u, lt)], h =>
      cases return_label <;>
      · cases h
        refine ⟨fun t => ?_, fun t => ?_, fun t => ?_, ?_, ⟨[(u, lt)], rfl⟩⟩ <;>
          simp [batchPredTensors, batchEmbTensors, batchLabelTensors, hn, hl,
            ho, appendToDict_apply, tensorsFor] <;>
          by_cases hut : u = t <;> simp [hut]
    | (kv1 :: kv2 :: rest), h => exact Except.noConfusion h

/-- Invariant of the whole `node_mini_batch_gnn_predict` batch loop on the
success path: every accumulator holds the initial contents followed by the
per-batch contributions in loader-yield order, `get_labels` was invoked on
every batch's seed set in order, and every label fetch succeeded. -/
theorem gnnPredictLoop_ok (model : GSModel) (data : GSData)
    (return_proba return_label : Bool) (bs : List Batch)
    (st0 st : GnnLoopState)
    (h : gnnPredictLoop model data return_proba return_label st0 bs = .ok st) :
    (∀ t, st.preds t = st0.preds t
        ++ (bs.map (batchPredTensors model data return_proba t)).flatten)
    ∧ (∀ t, st.embs t = st0.embs t
        ++ (bs.map (batchEmbTensors model data return_proba t)).flatten)
    ∧ (∀ t, st.labels t = st0.labels t
        ++ (if return_label then (bs.map (batchLabelTensors data t)).flatten
            else []))
    ∧ st.labelCalls = st0.labelCalls ++ bs.map (fun b => b.seeds)
    ∧ ∀ b ∈ bs, ∃ l, data.get_labels b.seeds = .ok l := by
  induction bs generalizing st0 with
  | nil =>
    unfold gnnPredictLoop at h
    simp only [List.foldlM_nil] at h
    cases h
    refine ⟨fun t => ?_, fun t => ?_, fun t => ?_, ?_, ?_⟩ <;>
      simp [List.not_mem_nil]
  | cons b bs ih =>
    unfold gnnPredictLoop at h
    rw [List.foldlM_cons] at h
    cases hstep : gnnPredictStep model data return_proba return_label st0 b with
    | error e => rw [hstep] at h; exact Except.noConfusion h
    | ok st1 =>
      rw [hstep] at h
      simp only [bind, Except.bind] at h
      obtain ⟨hp, he, hlb, hcalls, hl⟩ :=
        gnnPredictStep_ok model data return_proba return_label st0 st1 b hstep
      obtain ⟨ihp, ihe, ihlb, ihcalls, ihl⟩ := ih st1 h
      refine ⟨fun t => ?_, fun t => ?_, fun t => ?_, ?_, ?_⟩
      · rw [ihp t, hp t]; simp [List.append_assoc]
      · rw [ihe t, he t]; simp [List.append_assoc]
      · rw [ihlb t, hlb t]; cases return_label <;> simp [List.append_assoc]
      · rw [ihcalls, hcalls]; simp
      · intro b' hb'
        rcases List.mem_cons.mp hb' with rfl | hb'
        · exact hl
        · exact ihl b' hb'

/-- Claim C2: for every node type, the prediction/embedding/label arrays
returned by `node_mini_batch_gnn_predict` are the concatenation of that
type's per-batch tensors in exactly the order the loader yielded the
batches (no re-sorting by node id), and the total row count per type
equals the sum over all batches of that type's per-batch row counts.
The success of the call is witnessed by the returned mode being `train`. -/
theorem c2_concat_in_yield_order (model : GSModel) (data : GSData)
    (bs : List Batch) (return_proba return_label : Bool)
    (h : (node_mini_batch_gnn_predict model data bs return_proba return_label
        Mode.eval).2 = Mode.train) :
    ∃ out, (node_mini_batch_gnn_predict model data bs return_proba
        return_label Mode.eval).1 = .ok out
      ∧ (∀ t, out.preds t
            = ((bs.map (batchPredTensors model data return_proba t)).flatten).flatten
          ∧ (out.preds t).length
            = (bs.map (fun b =>
                ((batchPredTensors model data return_proba t b).map
                  List.length).sum)).sum
          ∧ out.embs t
            = ((bs.map (batchEmbTensors model data return_proba t)).flatten).flatten
          ∧ (out.embs t).length
            = (bs.map (fun b =>
                ((batchEmbTensors model data return_proba t b).map
                  List.length).sum)).sum)
      ∧ (return_label = true →
          out.labels = some (fun t =>
            ((bs.map (batchLabelTensors data t)).flatten).flatten)) := by
  by_cases hc : (return_label && data.labelField.isNone) = true
  · rw [node_mini_batch_gnn_predict, if_pos hc] at h
    exact absurd h (by simp)
  · rw [node_mini_batch_gnn_predict, if_neg hc] at h
    cases hloop : gnnPredictLoop model data return_proba return_label
        GnnLoopState.init bs with
    | error e => rw [hloop] at h; exact absurd h (by simp)
    | ok st =>
      rw [node_mini_batch_gnn_predict, if_neg hc, hloop]
      obtain ⟨hp, he, hlb, hcalls, hl⟩ :=
        gnnPredictLoop_ok model data return_proba return_label bs
          GnnLoopState.init st hloop
      refine ⟨_, rfl, fun t => ⟨?_, ?_, ?_, ?_⟩, fun hrl => ?_⟩
      · show (st.preds t).flatten = _
        rw [hp t]; simp [GnnLoopState.init]
      · show ((st.preds t).flatten).length = _
        rw [hp t]
        simp [GnnLoopState.init, List.length_flatten, List.map_flatten,
          List.sum_flatten, List.map_map, Function.comp_def]
      · show (st.embs t).flatten = _
        rw [he t]; simp [GnnLoopState.init]
      · show ((st.embs t).flatten).length = _
        rw [he t]
        simp [GnnLoopState.init, List.length_flatten, List.map_flatten,
          List.sum_flatten, List.map_map, Function.comp_def]
      · subst hrl
        show some _ = some _
        exact congrArg some (funext fun t => by
          show (st.labels t).flatten = _
          rw [hlb t]; simp [GnnLoopState.init])

/-- Claim C10: `node_mini_batch_gnn_predict` invokes the dataset's
`get_labels` on the seed nodes of every batch the loader yielded, even
with `return_label = false`; consequently a successful run implies that
label retrieval succeeded for every batch. -/
theorem c10_get_labels_on_every_batch (model : GSModel) (data : GSData)
    (bs : List Batch) (return_proba : Bool)
    (h : (node_mini_batch_gnn_predict model data bs return_proba false
        Mode.eval).2 = Mode.train) :
    ∃ out, (node_mini_batch_gnn_predict model data bs return_proba false
        Mode.eval).1 = .ok out
      ∧ out.labelCalls = bs.map (fun b => b.seeds)
      ∧ ∀ b ∈ bs, ∃ l, data.get_labels b.seeds = .ok l := by
  rw [node_mini_batch_gnn_predict] at h
  simp only [Bool.false_and, Bool.false_eq_true, if_false] at h
  cases hloop : gnnPredictLoop model data return_proba false
      GnnLoopState.init bs with
  | error e => rw [hloop] at h; exact absurd h (by simp)
  | ok st =>
    rw [node_mini_batch_gnn_predict]
    simp only [Bool.false_and, Bool.false_eq_true, if_false]
    rw [hloop]
    obtain ⟨hp, he, hlb, hcalls, hl⟩ :=
      gnnPredictLoop_ok model data return_proba false bs
        GnnLoopState.init st hloop
    refine ⟨_, rfl, ?_, hl⟩
    show st.labelCalls = _
    rw [hcalls]; simp [GnnLoopState.init]

/-- Witness for claim C2 at a concrete one-batch run. -/
theorem c2_concat_in_yield_order_witness :
    (node_mini_batch_gnn_predict wModel wData [wBatch] true true Mode.eval).2
        = Mode.train
    ∧ ∃ out, (node_mini_batch_gnn_predict wModel wData [wBatch] true true
          Mode.eval).1 = .ok out
        ∧ out.preds "n0" = [1, 2] := by
  refine ⟨rfl, ?_⟩
  obtain ⟨out, h1, h2, _⟩ :=
    c2_concat_in_yield_order wModel wData [wBatch] true true rfl
  refine ⟨out, h1, ?_⟩
  rw [(h2 "n0").1]
  decide

/-- Witness for claim C10 at a concrete one-batch run with
`return_label = false`. -/
theorem c10_get_labels_on_every_batch_witness :
    (node_mini_batch_gnn_predict wModel wData [wBatch] true false Mode.eval).2
        = Mode.train
    ∧ ∃ out, (node_mini_batch_gnn_predict wModel wData [wBatch] true false
          Mode.eval).1 = .ok out
        ∧ out.labelCalls = [wBatch.seeds]
        ∧ ∀ b ∈ [wBatch], ∃ l, wData.get_labels b.seeds = .ok l := by
  refine ⟨rfl, ?_⟩
  obtain ⟨out, h1, h2, h3⟩ :=
    c10_get_labels_on_every_batch wModel wData [wBatch] true rfl
  exact ⟨out, h1, h2.trans rfl, h3⟩

/-- Claim C4: calling either prediction loop with `return_label = true` on
a dataset with no configured label field fails with the label-assertion
error immediately: the result is the assertion error with the model's mode
untouched, for every model, every embedding table and every loader — so no
batch is processed and `model.predict` is never invoked. -/
theorem c4_label_assert_before_batches (model : GSModel)
    (dmodel : GSDecoderModel) (data : GSData) (emb : List (String × Tensor))
    (bs bs' : List Batch) (rp rp' : Bool) (mode mode' : Mode)
    (h : data.labelField = none) :
    node_mini_batch_gnn_predict model data bs rp true mode
      = (.error "Return label is required, but the label field is not provided",
         mode)
    ∧ node_mini_batch_predict dmodel data emb bs' rp' true mode'
      = (.error "Return label is required, but the label field is not provided",
         mode') := by
  constructor <;>
    simp [node_mini_batch_gnn_predict, node_mini_batch_predict, h]

/-- Witness for claim C4 at concrete inputs. -/
theorem c4_label_assert_before_batches_witness :
    wDataNoLabel.labelField = none
    ∧ (node_mini_batch_gnn_predict wModel wDataNoLabel [wBatch] true true
          Mode.train
        = (.error
            "Return label is required, but the label field is not provided",
           Mode.train)
      ∧ node_mini_batch_predict wDec wDataNoLabel [] [wBatch] true true
          Mode.train
        = (.error
            "Return label is required, but the label field is not provided",
           Mode.train)) :=
  ⟨rfl, c4_label_assert_before_batches wModel wDec wDataNoLabel [] [wBatch]
    [wBatch] true true Mode.train Mode.train rfl⟩

/-- Claim C3: in `node_mini_batch_gnn_predict`, when `model.predict`
returns a flat (non-dict) output for a batch, the loop infers the single
node type from that batch's label mapping's sole key and accumulates the
prediction and embedding under that type; when the label mapping has zero
or more than one entries the call fails with the `len(label) == 1`
assertion. -/
theorem c3_flat_output_single_label_type (model : GSModel) (data : GSData)
    (b : Batch) (m : List (String × List Nat)) (p e : Tensor)
    (return_proba : Bool) (label : List (String × Tensor))
    (hb : b.inputNodes = .dict m)
    (hl : data.get_labels b.seeds = .ok label)
    (hp : model.predict b.blocks (data.get_node_feats m) m return_proba
        = .flat p e) :
    (∀ t lt, label = [(t, lt)] →
      ∃ out, (node_mini_batch_gnn_predict model data [b] return_proba false
            Mode.eval).1 = .ok out
        ∧ (node_mini_batch_gnn_predict model data [b] return_proba false
            Mode.eval).2 = Mode.train
        ∧ out.preds t = p ∧ out.embs t = e)
    ∧ (label.length ≠ 1 →
      node_mini_batch_gnn_predict model data [b] return_proba false Mode.eval
        = (.error "assert len(label) == 1", Mode.eval)) := by
  have hn : normalizeInput data.ntypes b.inputNodes = .ok m := by
    rw [hb]; rfl
  constructor
  · intro t lt hlab
    subst hlab
    have hstep : gnnPredictStep model data return_proba false
        GnnLoopState.init b = .ok
        { preds := appendToDict [(t, p)] GnnLoopState.init.preds,
          embs := appendToDict [(t, e)] GnnLoopState.init.embs,
          labels := GnnLoopState.init.labels,
          labelCalls := GnnLoopState.init.labelCalls ++ [b.seeds] } := by
      unfold gnnPredictStep
      rw [hn]
      simp only [bind, Except.bind, hl, hp]
      rfl
    have hloop : gnnPredictLoop model data return_proba false
        GnnLoopState.init [b] = .ok
        { preds := appendToDict [(t, p)] GnnLoopState.init.preds,
          embs := appendToDict [(t, e)] GnnLoopState.init.embs,
          labels := GnnLoopState.init.labels,
          labelCalls := GnnLoopState.init.labelCalls ++ [b.seeds] } := by
      unfold gnnPredictLoop
      rw [List.foldlM_cons, hstep]
      rfl
    rw [node_mini_batch_gnn_predict]
    simp only [Bool.false_and, Bool.false_eq_true, if_false]
    rw [hloop]
    refine ⟨_, rfl, rfl, ?_, ?_⟩ <;>
      simp [appendToDict_apply, tensorsFor, GnnLoopState.init]
  · intro hlen
    have hstep : gnnPredictStep model data return_proba false
        GnnLoopState.init b = .error "assert len(label) == 1" := by
      unfold gnnPredictStep
      rw [hn]
      simp only [bind, Except.bind, hl, hp]
      match label, hlen with
      | [], _ => rfl
      | [(u, lt)], hlen => exact absurd rfl hlen
      | (kv1 :: kv2 :: rest), _ => rfl
    have hloop : gnnPredictLoop model data return_proba false
        GnnLoopState.init [b] = .error "assert len(label) == 1" := by
      unfold gnnPredictLoop
      rw [List.foldlM_cons, hstep]
      rfl
    rw [node_mini_batch_gnn_predict]
    simp only [Bool.false_and, Bool.false_eq_true, if_false]
    rw [hloop]

/-- Witness for claim C3 at a concrete flat-output batch with a sole
label node type. -/
theorem c3_flat_output_single_label_type_witness :
    wBatch.inputNodes = .dict [("n0", [0, 1])]
    ∧ wFlatData.get_labels wBatch.seeds = .ok [("n0", [9])]
    ∧ wFlatModel.predict wBatch.blocks
        (wFlatData.get_node_feats [("n0", [0, 1])]) [("n0", [0, 1])] true
        = .flat [7] [8]
    ∧ ∃ out, (node_mini_batch_gnn_predict wFlatModel wFlatData [wBatch] true
          false Mode.eval).1 = .ok out
        ∧ (node_mini_batch_gnn_predict wFlatModel wFlatData [wBatch] true
            false Mode.eval).2 = Mode.train
        ∧ out.preds "n0" = [7] ∧ out.embs "n0" = [8] :=
  ⟨rfl, rfl, rfl,
    (c3_flat_output_single_label_type wFlatModel wFlatData wBatch
      [("n0", [0, 1])] [7] [8] true [("n0", [9])] rfl rfl rfl).1
      "n0" [9] rfl⟩

/-- Claim C1 (code evaluation): when an exception propagates out of the
batch iteration, neither loop restores the model's training mode — the
model entered in `train` mode is left in `eval` mode, because
`model.train()` (node_gnn.py lines 212 and 274) runs only on the success
path, not as scoped cleanup.  First conjunct: the flat-output assertion
fires inside `node_mini_batch_gnn_predict`.  Second conjunct: a missing
embedding-table key raises inside `node_mini_batch_predict`. -/
theorem c1_mode_restoration_skipped_on_error :
    node_mini_batch_gnn_predict wFlatModel wTwoLabelData [wBatch] true false
        Mode.train
      = (.error "assert len(label) == 1", Mode.eval)
    ∧ node_mini_batch_predict wDec wData [] [wBatch] true false Mode.train
      = (.error "KeyError", Mode.eval) :=
  ⟨rfl, rfl⟩

/-- Characterization of one successful `node_mini_batch_predict` item:
the embedding-table lookup and row selection succeeded and the prediction
accumulator grew exactly by the decoder output for this item. -/
theorem decPredictItem_ok (model : GSDecoderModel) (data : GSData)
    (emb : List (String × Tensor)) (return_proba return_label : Bool)
    (seeds : Seeds) (st0 st1 : DecLoopState) (kv : String × List Nat)
    (h : decPredictItem model data emb return_proba return_label seeds st0 kv
        = .ok st1) :
    ∃ p, itemPred model emb return_proba kv = some p
      ∧ ∀ t, st1.preds t = st0.preds t ++ (if kv.1 = t then [p] else []) := by
  cases return_label with
  | false =>
    unfold decPredictItem dictGet selectRows at h
    cases htb : emb.lookup kv.1 with
    | none => rw [htb] at h; exact Except.noConfusion h
    | some table =>
      rw [htb] at h
      simp only [bind, Except.bind] at h
      cases hall : kv.2.all (fun i => decide (i < table.length)) with
      | false => rw [hall] at h; exact Except.noConfusion h
      | true =>
        rw [hall] at h
        simp only [Bool.false_eq_true, if_false] at h
        cases h
        refine ⟨decOf model return_proba (kv.2.map (fun i => table.getD i 0)),
          ?_, fun t => ?_⟩
        · simp only [itemPred, htb, hall]
        · show appendOne kv.1 _ st0.preds t = _
          unfold appendOne decOf
          by_cases hkt : t = kv.1
          · simp [hkt]
          · simp [hkt, Ne.symm hkt]
  | true =>
    unfold decPredictItem dictGet selectRows at h
    cases htb : emb.lookup kv.1 with
    | none => rw [htb] at h; exact Except.noConfusion h
    | some table =>
      rw [htb] at h
      simp only [bind, Except.bind] at h
      cases hall : kv.2.all (fun i => decide (i < table.length)) with
      | false => rw [hall] at h; exact Except.noConfusion h
      | true =>
        rw [hall] at h
        simp only [eq_self_iff_true, if_true, bind, Except.bind] at h
        cases hlbl : data.get_labels seeds with
        | error e => rw [hlbl] at h; exact Except.noConfusion h
        | ok lbl =>
          rw [hlbl] at h
          simp only [bind, Except.bind] at h
          cases hlk : lbl.lookup kv.1 with
          | none => rw [hlk] at h; exact Except.noConfusion h
          | some lt =>
            rw [hlk] at h
            cases h
            refine ⟨decOf model return_proba (kv.2.map (fun i => table.getD i 0)),
              ?_, fun t => ?_⟩
            · simp only [itemPred, htb, hall]
            · show appendOne kv.1 _ st0.preds t = _
              unfold appendOne decOf
              by_cases hkt : t = kv.1
              · simp [hkt]
              · simp [hkt, Ne.symm hkt]

/-- Folding the items of one batch's `input_nodes` dict: on success the
prediction accumulator grows by exactly the per-item decoder outputs for
each key, in dict order. -/
theorem decItemsFold_ok (model : GSDecoderModel) (data : GSData)
    (emb : List (String × Tensor)) (return_proba return_label : Bool)
    (seeds : Seeds) (m : List (String × List Nat)) (st0 st : DecLoopState)
    (h : m.foldlM
        (decPredictItem model data emb return_proba return_label seeds) st0
      = .ok st) :
    ∀ t, st.preds t = st0.preds t
      ++ m.filterMap (fun kv =>
          if kv.1 = t then itemPred model emb return_proba kv else none) := by
  induction m generalizing st0 with
  | nil =>
    simp only [List.foldlM_nil] at h
    cases h
    simp
  | cons kv m ih =>
    rw [List.foldlM_cons] at h
    cases hitem : decPredictItem model data emb return_proba return_label
        seeds st0 kv with
    | error e => rw [hitem] at h; exact Except.noConfusion h
    | ok st1 =>
      rw [hitem] at h
      simp only [bind, Except.bind] at h
      obtain ⟨p, hip, hpr⟩ :=
        decPredictItem_ok model data emb return_proba return_label seeds
          st0 st1 kv hitem
      intro t
      rw [ih st1 h t, hpr t, List.filterMap_cons]
      by_cases hkt : kv.1 = t <;> simp [hkt, hip, List.append_assoc]

/-- One successful `node_mini_batch_predict` batch iteration grows the
prediction accumulator by exactly the batch's contribution. -/
theorem decPredictStep_ok (model : GSDecoderModel) (data : GSData)
    (emb : List (String × Tensor)) (return_proba return_label : Bool)
    (st0 st : DecLoopState) (b : Batch)
    (h : decPredictStep model data emb return_proba return_label st0 b
      = .ok st) :
    ∀ t, st.preds t = st0.preds t
      ++ batchDecPreds model emb return_proba t b := by
  unfold decPredictStep at h
  cases hbi : b.inputNodes with
  | flat ins => rw [hbi] at h; exact Except.noConfusion h
  | dict m =>
    rw [hbi] at h
    intro t
    rw [decItemsFold_ok model data emb return_proba return_label b.seeds m
      st0 st h t]
    unfold batchDecPreds
    rw [hbi]

/-- Invariant of the whole `node_mini_batch_predict` batch loop on the
success path. -/
theorem decPredictLoop_ok (model : GSDecoderModel) (data : GSData)
    (emb : List (String × Tensor)) (return_proba return_label : Bool)
    (bs : List Batch) (st0 st : DecLoopState)
    (h : bs.foldlM (decPredictStep model data emb return_proba return_label)
        st0 = .ok st) :
    ∀ t, st.preds t = st0.preds t
      ++ (bs.map (batchDecPreds model emb return_proba t)).flatten := by
  induction bs generalizing st0 with
  | nil =>
    simp only [List.foldlM_nil] at h
    cases h
    simp
  | cons b bs ih =>
    rw [List.foldlM_cons] at h
    cases hstep : decPredictStep model data emb return_proba return_label
        st0 b with
    | error e => rw [hstep] at h; exact Except.noConfusion h
    | ok st1 =>
      rw [hstep] at h
      simp only [bind, Except.bind] at h
      intro t
      rw [ih st1 h t,
        decPredictStep_ok model data emb return_proba return_label st0 st1 b
          hstep t]
      simp [List.append_assoc]

/-- `decPredictStep` never reads the batch's message-passing blocks. -/
theorem decPredictStep_blocks (model : GSDecoderModel) (data : GSData)
    (emb : List (String × Tensor)) (return_proba return_label : Bool)
    (st : DecLoopState) (b : Batch) (blk : List Nat) :
    decPredictStep model data emb return_proba return_label st
        { b with blocks := blk }
      = decPredictStep model data emb return_proba return_label st b := rfl

/-- Replacing every batch's blocks leaves the whole
`node_mini_batch_predict` fold unchanged. -/
theorem decPredictFold_blocks (model : GSDecoderModel) (data : GSData)
    (emb : List (String × Tensor)) (return_proba return_label : Bool)
    (bs : List Batch) (st : DecLoopState) (f : Batch → List Nat) :
    (bs.map (fun b => { b with blocks := f b })).foldlM
        (decPredictStep model data emb return_proba return_label) st
      = bs.foldlM (decPredictStep model data emb return_proba return_label)
          st := by
  induction bs generalizing st with
  | nil => rfl
  | cons b bs ih =>
    rw [List.map_cons, List.foldlM_cons, List.foldlM_cons,
      decPredictStep_blocks]
    cases decPredictStep model data emb return_proba return_label st b with
    | error e => rfl
    | ok st1 => simp only [bind, Except.bind]; exact ih st1

/-- Claim C5: in the precomputed-embedding overload
`node_mini_batch_predict`, for every batch and every node type in that
batch's input-node mapping, the accumulated prediction is the decoder
applied to the rows of the precomputed per-type embedding table selected
by the batch's input-node indices (`predict_proba` when `return_proba`,
`predict` otherwise), accumulated in loader-yield order — and no GNN
message passing is performed: replacing every batch's blocks leaves the
result unchanged. -/
theorem c5_decoder_on_precomputed_embeddings (model : GSDecoderModel)
    (data : GSData) (emb : List (String × Tensor)) (bs : List Batch)
    (return_proba : Bool)
    (h : (node_mini_batch_predict model data emb bs return_proba false
        Mode.eval).2 = Mode.train) :
    (∃ out, (node_mini_batch_predict model data emb bs return_proba false
          Mode.eval).1 = .ok out
      ∧ ∀ t, out.preds t
          = ((bs.map (batchDecPreds model emb return_proba t)).flatten).flatten)
    ∧ ∀ f : Batch → List Nat,
        node_mini_batch_predict model data emb
            (bs.map (fun b => { b with blocks := f b })) return_proba false
            Mode.eval
          = node_mini_batch_predict model data emb bs return_proba false
              Mode.eval := by
  have hblocks : ∀ f : Batch → List Nat,
      node_mini_batch_predict model data emb
          (bs.map (fun b => { b with blocks := f b })) return_proba false
          Mode.eval
        = node_mini_batch_predict model data emb bs return_proba false
            Mode.eval := by
    intro f
    unfold node_mini_batch_predict
    rw [decPredictFold_blocks]
  refine ⟨?_, hblocks⟩
  rw [node_mini_batch_predict] at h
  simp only [Bool.false_and, Bool.false_eq_true, if_false] at h
  cases hloop : bs.foldlM
      (decPredictStep model data emb return_proba false) DecLoopState.init with
  | error e => rw [hloop] at h; exact absurd h (by simp)
  | ok st =>
    rw [node_mini_batch_predict]
    simp only [Bool.false_and, Bool.false_eq_true, if_false]
    rw [hloop]
    refine ⟨_, rfl, fun t => ?_⟩
    show (st.preds t).flatten = _
    rw [decPredictLoop_ok model data emb return_proba false bs
      DecLoopState.init st hloop t]
    simp [DecLoopState.init]

/-- Witness for claim C5 at a concrete one-batch run: the identity decoder
over rows 0 and 1 of the `n0` table. -/
theorem c5_decoder_on_precomputed_embeddings_witness :
    (node_mini_batch_predict wDec wData wEmb [wBatch] true false
        Mode.eval).2 = Mode.train
    ∧ ∃ out, (node_mini_batch_predict wDec wData wEmb [wBatch] true false
          Mode.eval).1 = .ok out
        ∧ out.preds "n0" = [10, 20] := by
  refine ⟨rfl, ?_⟩
  obtain ⟨⟨out, h1, h2⟩, _⟩ :=
    c5_decoder_on_precomputed_embeddings wDec wData wEmb [wBatch] true rfl
  refine ⟨out, h1, ?_⟩
  rw [h2 "n0"]
  decide

/-- Claim C8: a node type present in the input-node mapping with an empty
index sequence yields a successful call whose output contains a zero-row
entry for that type — no error, and the key is not omitted. -/
theorem c8_zero_index_type_zero_row_entry (cfg : InputLayerConfig)
    (inputNodes : List (String × List Nat)) (t : String)
    (hall : ∀ kv ∈ inputNodes, (cfg.types kv.1).isSome)
    (ht : (t, ([] : List Nat)) ∈ inputNodes) :
    ∃ out, inputLayerForward cfg inputNodes = .ok out
      ∧ (t, ([] : Tensor)) ∈ out := by
  unfold inputLayerForward
  rw [if_pos (List.all_eq_true.mpr (fun kv hkv => hall kv hkv))]
  refine ⟨_, rfl, ?_⟩
  exact List.mem_map.mpr ⟨(t, []), ht, rfl⟩

/-- Witness for claim C8 at a concrete layer and batch. -/
theorem c8_zero_index_type_zero_row_entry_witness :
    (∀ kv ∈ [("n0", [0, 1]), ("n1", ([] : List Nat))],
      (InputLayerConfig.types
        ⟨fun _ => some ⟨some (fun i => Int.ofNat i), none, none⟩⟩ kv.1).isSome)
    ∧ ∃ out, inputLayerForward
          ⟨fun _ => some ⟨some (fun i => Int.ofNat i), none, none⟩⟩
          [("n0", [0, 1]), ("n1", [])] = .ok out
        ∧ ("n1", ([] : Tensor)) ∈ out :=
  ⟨fun _ _ => rfl,
    c8_zero_index_type_zero_row_entry
      ⟨fun _ => some ⟨some (fun i => Int.ofNat i), none, none⟩⟩
      [("n0", [0, 1]), ("n1", [])] "n1" (fun _ _ => rfl)
      (by simp)⟩

/-- Claim C9: supplying an input-node mapping containing a node type
unknown to the layer's configuration makes the call fail with a usage
error; no output mapping (not even a partial one) is produced. -/
theorem c9_unknown_type_usage_error (cfg : InputLayerConfig)
    (inputNodes : List (String × List Nat)) (t : String) (ins : List Nat)
    (ht : (t, ins) ∈ inputNodes) (hu : cfg.types t = none) :
    inputLayerForward cfg inputNodes
      = .error "usage error: node type unknown to the layer" := by
  unfold inputLayerForward
  rw [if_neg]
  intro hcontra
  have := List.all_eq_true.mp hcontra (t, ins) ht
  rw [hu] at this
  exact Bool.noConfusion this

/-- Witness for claim C9: a configuration knowing only `n0`, called with
an `n2` entry. -/
theorem c9_unknown_type_usage_error_witness :
    ("n2", [0]) ∈ [("n0", [0, 1]), ("n2", [0])]
    ∧ (InputLayerConfig.types
        ⟨fun s => if s = "n0" then
            some ⟨some (fun i => Int.ofNat i), none, none⟩ else none⟩) "n2"
        = none
    ∧ inputLayerForward
        ⟨fun s => if s = "n0" then
            some ⟨some (fun i => Int.ofNat i), none, none⟩ else none⟩
        [("n0", [0, 1]), ("n2", [0])]
      = .error "usage error: node type unknown to the layer" :=
  ⟨by simp, rfl,
    c9_unknown_type_usage_error
      ⟨fun s => if s = "n0" then
          some ⟨some (fun i => Int.ofNat i), none, none⟩ else none⟩
      [("n0", [0, 1]), ("n2", [0])] "n2" [0] (by simp) rfl⟩

/-- Claim C6: while the LM sub-component is frozen with a populated cache,
mutating the LM's parameters does not change the input embedding layer's
output for any batch; after `unfreeze`, the output for the same batch
diverges from the frozen baseline once the parameters differ visibly at
some node of the batch. -/
theorem c6_frozen_cache_param_independence (cfg : LMLayerConfig)
    (st : LMLayerState) (c p' : Nat → Int) (batch : List Nat)
    (hc : st.lmCache = some c) :
    lmLayerForward cfg (st.mutateParams p') batch
        = lmLayerForward cfg st batch
    ∧ ((∃ i ∈ batch, cfg.lmProjW * p' i ≠ cfg.lmProjW * c i) →
      lmLayerForward cfg ((st.mutateParams p').unfreeze) batch
        ≠ lmLayerForward cfg st batch) := by
  constructor
  · simp [lmLayerForward, pooledOf, LMLayerState.mutateParams, hc]
  · rintro ⟨i, hi, hne⟩ heq
    simp only [lmLayerForward, pooledOf, LMLayerState.unfreeze,
      LMLayerState.mutateParams, hc] at heq
    have := List.map_inj_left.mp heq i hi
    exact hne (add_left_cancel this)

/-- Witness for claim C6: a frozen layer caching pooled output 0 whose
parameters are then re-initialized to 5. -/
theorem c6_frozen_cache_param_independence_witness :
    LMLayerState.lmCache ⟨fun _ => 0, some (fun _ => 0)⟩
        = some (fun _ => (0 : Int))
    ∧ lmLayerForward ⟨fun i => Int.ofNat i, 1⟩
          (LMLayerState.mutateParams ⟨fun _ => 0, some (fun _ => 0)⟩
            (fun _ => 5)) [0, 1]
        = lmLayerForward ⟨fun i => Int.ofNat i, 1⟩
            ⟨fun _ => 0, some (fun _ => 0)⟩ [0, 1]
    ∧ ((∃ i ∈ [0, 1], (1 : Int) * 5 ≠ 1 * 0) →
      lmLayerForward ⟨fun i => Int.ofNat i, 1⟩
          ((LMLayerState.mutateParams ⟨fun _ => 0, some (fun _ => 0)⟩
            (fun _ => 5)).unfreeze) [0, 1]
        ≠ lmLayerForward ⟨fun i => Int.ofNat i, 1⟩
            ⟨fun _ => 0, some (fun _ => 0)⟩ [0, 1]) :=
  ⟨rfl,
    (c6_frozen_cache_param_independence ⟨fun i => Int.ofNat i, 1⟩
      ⟨fun _ => 0, some (fun _ => 0)⟩ (fun _ => 0) (fun _ => 5) [0, 1]
      rfl).1,
    fun _ =>
      (c6_frozen_cache_param_independence ⟨fun i => Int.ofNat i, 1⟩
        ⟨fun _ => 0, some (fun _ => 0)⟩ (fun _ => 0) (fun _ => 5) [0, 1]
        rfl).2 ⟨0, by simp, by decide⟩⟩

/-- The chunks of an index range flatten back to the contiguous range
(positive batch size). -/
theorem chunksFrom_flatten (b : Nat) (hb : 0 < b) :
    ∀ n s, (chunksFrom b s n).flatten = List.range' s n := by
  intro n
  induction n using Nat.strong_induction_on with
  | _ n ih =>
    intro s
    rw [chunksFrom]
    by_cases h0 : n = 0 ∨ b = 0
    · rw [dif_pos h0]
      rcases h0 with h0 | h0
      · simp [h0]
      · omega
    · rw [dif_neg h0]
      by_cases hnb : n ≤ b
      · rw [if_pos hnb]
        simp
      · push_neg at h0 hnb
        simp only [if_neg (by omega : ¬n ≤ b), List.flatten_cons]
        rw [ih (n - b) (by omega) (s + b)]
        have := List.range'_append s b (n - b) 1
        simp only [one_mul] at this
        rw [this]
        congr 1
        omega

/-- Writing `f i` at every position of `L` preserves the array length. -/
theorem setAll_length (f : Nat → Int) (L : List Nat) (arr : Tensor) :
    (L.foldl (fun a i => a.set i (f i)) arr).length = arr.length := by
  induction L generalizing arr with
  | nil => rfl
  | cons i L ih => rw [List.foldl_cons, ih, List.length_set]

/-- After writing `f i` at every position of `L`, position `j` holds `f j`
when `j ∈ L` and its old value otherwise. -/
theorem setAll_getElem (f : Nat → Int) (L : List Nat) (arr : Tensor)
    (j : Nat) (hj : j < arr.length)
    (hj' : j < (L.foldl (fun a i => a.set i (f i)) arr).length) :
    (L.foldl (fun a i => a.set i (f i)) arr)[j]
      = if j ∈ L then f j else arr[j] := by
  induction L generalizing arr with
  | nil => simp
  | cons i L ih =>
    have hlen2 : j < (arr.set i (f i)).length := by
      rw [List.length_set]; exact hj
    have hlen3 : j < (List.foldl (fun a i => a.set i (f i))
        (arr.set i (f i)) L).length := hj'
    have key := ih (arr.set i (f i)) hlen2 hlen3
    have hstep : (List.foldl (fun a i => a.set i (f i)) arr (i :: L))[j]
        = (List.foldl (fun a i => a.set i (f i)) (arr.set i (f i)) L)[j] := rfl
    rw [hstep, key]
    by_cases hjl : j ∈ L
    · simp [hjl]
    · rw [if_neg hjl, List.getElem_set]
      by_cases hij : i = j
      · subst hij
        simp
      · have hnotc : ¬ j ∈ i :: L := by
          rw [List.mem_cons]
          rintro (hcase | hcase)
          · exact hij hcase.symm
          · exact hjl hcase
        rw [if_neg hij, if_neg hnotc]

/-- The per-type body of the compute loop fills the embedding tensor with
the layer's row for every global node id, whenever the initial tensor has
the right length (freshly created or reused from a previous call). -/
theorem computeTypeEmb_eq (layer : String → Nat → Int) (b count : Nat)
    (store : EmbStore) (t : String) (hb : 0 < b)
    (hlen : ((store.tbl t).getD (List.replicate count 0)).length = count) :
    computeTypeEmb layer b count store t
      = (List.range count).map (layer t) := by
  unfold computeTypeEmb
  have hfold : (chunksFrom b 0 count).foldl (writeRows (layer t))
      ((store.tbl t).getD (List.replicate count 0))
      = ((chunksFrom b 0 count).flatten).foldl
          (fun a i => a.set i (layer t i))
          ((store.tbl t).getD (List.replicate count 0)) := by
    rw [List.foldl_flatten]
    rfl
  rw [hfold, chunksFrom_flatten b hb count 0]
  have hrange : List.range' 0 count = List.range count :=
    (List.range_eq_range' count).symm
  rw [hrange]
  apply List.ext_getElem
  · rw [setAll_length, hlen, List.length_map, List.length_range]
  · intro j h1 h2
    have hj : j < count := by
      rw [List.length_map, List.length_range] at h2
      exact h2
    rw [setAll_getElem (layer t) (List.range count) _ j (by rw [hlen]; exact hj) h1]
    rw [if_pos (List.mem_range.mpr hj)]
    rw [List.getElem_map, List.getElem_range]

/-- Claim C7: running the full-graph embedding compute loop twice on the
same graph with the same layer (no parameter update in between) yields
identical per-node-type embeddings — the second call reuses the store
tensor created by the first — and row `i` of each type's output is the
layer's embedding of global node id `i`. -/
theorem c7_compute_embeddings_idempotent (g : DistGraph) (b : Nat)
    (layer : String → Nat → Int) (store : EmbStore) (t : String)
    (hb : 0 < b) (hs : store.tbl t = none) (ht : t ∈ g.ntypes) :
    (compute_node_input_embeddings g b layer
        (compute_node_input_embeddings g b layer store).2).1 t
      = (compute_node_input_embeddings g b layer store).1 t
    ∧ (compute_node_input_embeddings g b layer store).1 t
      = (List.range (g.numNodes t)).map (layer t) := by
  have h1 : computeTypeEmb layer b (g.numNodes t) store t
      = (List.range (g.numNodes t)).map (layer t) := by
    apply computeTypeEmb_eq layer b (g.numNodes t) store t hb
    rw [hs]
    simp
  have hstore2 : (compute_node_input_embeddings g b layer store).2.tbl t
      = some (computeTypeEmb layer b (g.numNodes t) store t) := by
    show (if g.ntypes.contains t
        then some (computeTypeEmb layer b (g.numNodes t) store t)
        else store.tbl t) = _
    rw [if_pos (by simpa using ht)]
  have h2 : computeTypeEmb layer b (g.numNodes t)
      (compute_node_input_embeddings g b layer store).2 t
      = (List.range (g.numNodes t)).map (layer t) := by
    apply computeTypeEmb_eq _ _ _ _ _ hb
    rw [hstore2, Option.getD_some, h1]
    simp
  exact ⟨h2.trans h1.symm, h1⟩

/-- Witness for claim C7 at a concrete graph, batch size 2 and identity
layer. -/
theorem c7_compute_embeddings_idempotent_witness :
    0 < 2 ∧ wStore.tbl "n0" = none ∧ "n0" ∈ wGraph.ntypes
    ∧ ((compute_node_input_embeddings wGraph 2 (fun _ i => Int.ofNat i)
          (compute_node_input_embeddings wGraph 2 (fun _ i => Int.ofNat i)
            wStore).2).1 "n0"
        = (compute_node_input_embeddings wGraph 2 (fun _ i => Int.ofNat i)
            wStore).1 "n0"
      ∧ (compute_node_input_embeddings wGraph 2 (fun _ i => Int.ofNat i)
            wStore).1 "n0"
        = (List.range (wGraph.numNodes "n0")).map
            ((fun _ i => Int.ofNat i) "n0")) :=
  ⟨by decide, rfl, by simp [wGraph],
    c7_compute_embeddings_idempotent wGraph 2 (fun _ i => Int.ofNat i)
      wStore "n0" (by decide) rfl (by simp [wGraph])⟩
